import Mathlib

/-!
Verification of the MIDI-Launcher set parser and rule engine
(`MIDI-Launcher/midi_launcher.py`) against its natural-language
specification.

The Python source is shallowly embedded: strings become `List Char`, Python
ints become `Int`, Python floats are modelled as exact rationals `ℚ`, and a
Python function that can raise returns `Except String _`.  Diagnostics that
the source prints through its `print_error` / `print_warning` sinks are
collected as structured `Diag` values in the order they would be printed.
-/

namespace MidiLauncher

/-! ## Character and number helpers -/

/-- ASCII decimal digit test (`\d` in the source's regular expressions, and
the character class accepted by `str.isdigit` for the inputs at hand). -/
def isDigitChar (c : Char) : Bool := '0' ≤ c && c ≤ '9'

/-- Python's `\s` class: space, tab, newline, carriage return, vertical tab,
form feed. -/
def pyWs (c : Char) : Bool :=
  c = ' ' || c = '\t' || c = '\n' || c = '\r' || c = '\x0b' || c = '\x0c'

/-- `str.lower` on one ASCII character. -/
def pyLowerChar (c : Char) : Char :=
  if 'A' ≤ c && c ≤ 'Z' then Char.ofNat (c.toNat + 32) else c

/-- `str.lower` (ASCII). -/
def pyLower (s : List Char) : List Char := s.map pyLowerChar

/-- Numeric value of a digit string. -/
def digitsVal (s : List Char) : Nat :=
  s.foldl (fun a c => 10 * a + (c.toNat - '0'.toNat)) 0

/-- `str.isdigit`: non-empty and all digits. -/
def pyIsDigitStr (s : List Char) : Bool := !s.isEmpty && s.all isDigitChar

/-- Digit-string conversion that can fail (helper for `pyIntOf`). -/
def digitsValOpt (s : List Char) : Option Nat :=
  if !s.isEmpty && s.all isDigitChar then some (digitsVal s) else none

/-- Python `int(s)`, simplified to an optional sign followed by digits (the
tokens reaching it in this program contain no whitespace or underscores). -/
def pyIntOf : List Char → Option Int
  | '+' :: r => (digitsValOpt r).map (fun n => (n : Int))
  | '-' :: r => (digitsValOpt r).map (fun n => -(n : Int))
  | s => (digitsValOpt s).map (fun n => (n : Int))

/-- Decimal digits of a natural number. -/
def natChars (n : Nat) : List Char := Nat.toDigits 10 n

/-- Python `str(n)` for an int. -/
def intChars (n : Int) : List Char :=
  if n < 0 then '-' :: natChars n.natAbs else natChars n.toNat

/-! ## Python `range` -/

/-- Length of Python `range(a, b, stp)` for `stp ≠ 0`:
`max 0 ⌈(b - a) / stp⌉`, written with floor division. -/
def pyRangeLen (a b stp : Int) : Nat := (-((a - b).fdiv stp)).toNat

/-- The element list of Python `range(a, b, stp)` for `stp ≠ 0`. -/
def pyRangeList (a b stp : Int) : List Int :=
  List.map (fun i : Nat => a + stp * (i : Int)) (List.range (pyRangeLen a b stp))

def rangeZeroStepMsg : String := "ValueError: range() arg 3 must not be zero"

/-- Python `list(range(a, b, stp))`; a zero step raises `ValueError`. -/
def pyRange (a b stp : Int) : Except String (List Int) :=
  if stp = 0 then .error rangeZeroStepMsg else .ok (pyRangeList a b stp)

/-! ## Splitting on commas and whitespace

`parse_user_input` splits multi-token strings with
`re.split(r',\s*|\s+', user_input)`.  Both alternatives consume one
separator character and then greedily consume any directly following
whitespace (a following comma is never part of the same separator), so the
split is computed by a single accumulator automaton.  `dropMode` is true
while the whitespace tail of a just-consumed separator is being skipped. -/

def splitAuxM : Bool → List Char → List Char → List (List Char)
  | _, [], acc => [acc.reverse]
  | dropMode, c :: rest, acc =>
    if dropMode && pyWs c then splitAuxM true rest acc
    else if c = ',' || pyWs c then acc.reverse :: splitAuxM true rest []
    else splitAuxM false rest (c :: acc)

/-- `re.split(r',\s*|\s+', s)`. -/
def splitTokens (s : List Char) : List (List Char) := splitAuxM false s []

/-- A string free of separator characters (comma and whitespace); every
token produced by `splitTokens` is of this shape. -/
def sepFreeB (s : List Char) : Bool := s.all (fun c => !(c = ',' || pyWs c))

/-! ## The colon-range regular expression

`parse_user_input` matches (with `re.match`, i.e. anchored only at the
start) the pattern

  `(?P<start>-?\d+)\s*:\s*(?P<end>-?\d+)\s*(:\s*(?P<step>-?\d+))?`

against the lowercased token. -/

/-- Greedy `\d*` at the front of the list: the digits and the rest. -/
def takeDigits : List Char → List Char × List Char
  | [] => ([], [])
  | c :: rest =>
    if isDigitChar c then (c :: (takeDigits rest).1, (takeDigits rest).2)
    else ([], c :: rest)

def headIsDigit : List Char → Bool
  | [] => false
  | c :: _ => isDigitChar c

def headIsMinus : List Char → Bool
  | [] => false
  | c :: _ => c = '-'

def headIsColon : List Char → Bool
  | [] => false
  | c :: _ => c = ':'

/-- `-?\d+` at the front of the list: the signed value and the rest. -/
def parseIntTok (s : List Char) : Option (Int × List Char) :=
  if headIsMinus s then
    match takeDigits s.tail with
    | ([], _) => none
    | (ds, r2) => some (-(digitsVal ds : Int), r2)
  else
    match takeDigits s with
    | ([], _) => none
    | (ds, r2) => some ((digitsVal ds : Int), r2)

/-- `\s*` at the front of the list. -/
def skipWs : List Char → List Char
  | [] => []
  | c :: rest => if pyWs c then skipWs rest else c :: rest

/-- The optional step group `(:\s*(-?\d+))?` after the end group: matched
when a colon and a signed integer follow, empty otherwise.  `r3` is the
suffix right after the end digits; the match ends after the `\s*` following
the end group when the step group is empty. -/
def colonStepRes (a b : Int) (r3 : List Char) :
    Option (Int × List Char) → Option (Int × Int × Option Int × List Char)
  | some (stp, r5) => some (a, b, some stp, r5)
  | none => some (a, b, none, skipWs r3)

def colonStep (a b : Int) (r3 : List Char) : Option (Int × Int × Option Int × List Char) :=
  if headIsColon (skipWs r3) then
    colonStepRes a b r3 (parseIntTok (skipWs (skipWs r3).tail))
  else some (a, b, none, skipWs r3)

/-- The `(?P<end>-?\d+)` group and what follows it. -/
def colonEnd (a : Int) :
    Option (Int × List Char) → Option (Int × Int × Option Int × List Char)
  | none => none
  | some (b, r3) => colonStep a b r3

/-- The `\s*:\s*` after the start group and what follows it. -/
def colonAfterStart :
    Option (Int × List Char) → Option (Int × Int × Option Int × List Char)
  | none => none
  | some (a, r1) =>
    if headIsColon (skipWs r1) then
      colonEnd a (parseIntTok (skipWs (skipWs r1).tail))
    else none

/-- `re.match` of the colon-range pattern: start value, end value, optional
step group, and the unconsumed suffix of the input.  When the optional step
group fails to match, it matches empty and the overall match still
succeeds, ending right after the `\s*` that follows the end group. -/
def colonMatch (s : List Char) : Option (Int × Int × Option Int × List Char) :=
  colonAfterStart (parseIntTok s)

/-- Does a suffix begin with `:` followed (after `\s*`) by a signed integer,
i.e. would appending it extend a step-less colon match with a step group? -/
def stepExtends (s : List Char) : Bool :=
  if headIsColon s then (parseIntTok (skipWs s.tail)).isSome else false

/-! ## `str.split(sep)` -/

def pySplitAux : Char → List Char → List Char → List (List Char)
  | _, [], acc => [acc.reverse]
  | sep, c :: rest, acc =>
    if c = sep then acc.reverse :: pySplitAux sep rest []
    else pySplitAux sep rest (c :: acc)

/-- Python `s.split(sep)` for a one-character separator. -/
def pySplit (s : List Char) (sep : Char) : List (List Char) := pySplitAux sep s []

/-! ## TOML values and diagnostics -/

/-- The TOML values the configuration can hold. -/
inductive TomlVal where
  | int (n : Int)
  | float (q : ℚ)
  | str (s : List Char)
  | boolean (b : Bool)
  | list (xs : List TomlVal)
  | table

/-- One printed diagnostic.  The source prints formatted strings through
`print_error` / `print_warning`; each constructor stands for one such
message (with the data interpolated into it), and `header` stands for the
optional `header_text` line printed before a message. -/
inductive Diag where
  | header (h : List Char)
  | wrongType
  | valueOutOfRange (n : Int) (d : Int × Int)
  | rangeOutOfRange (s : List Char) (d : Int × Int)
  | zeroStep
  | startGreaterEnd
  | badRange (s : List Char)
  | unparseable (s : List Char)
  | invalidEvent
  | mappingError (m : TomlVal)
  | emptyPorts

/-- Diagnostics printed through the error sink. -/
def Diag.isError : Diag → Bool
  | .wrongType | .zeroStep | .startGreaterEnd | .badRange _
  | .unparseable _ | .invalidEvent | .mappingError _ => true
  | _ => false

/-- Diagnostics printed through the warning sink. -/
def Diag.isWarning : Diag → Bool
  | .valueOutOfRange _ _ | .rangeOutOfRange _ _ | .emptyPorts => true
  | _ => false

/-- Result of one `parse_user_input` call: the returned number list and the
diagnostics printed while producing it. -/
structure ParseOut where
  result : List Int
  diags : List Diag

/-- `if header_text: print_...(header_text)` followed by the message. -/
def hdrPlus (hdr : List Char) (l : List Diag) : List Diag :=
  (if hdr = [] then [] else [.header hdr]) ++ l

/-- The out-of-range check and warning applied to a single value
(`if user_input < default_range[0] or user_input > default_range[1]`). -/
def boundWarn (n : Int) (d : Int × Int) (hdr : List Char) : List Diag :=
  if n < d.1 ∨ d.2 < n then hdrPlus hdr [.valueOutOfRange n d] else []

/-- Sequence two sub-results the way the source's loops do: a raise aborts,
otherwise lists and printed diagnostics are concatenated in order. -/
def combine2 (x y : Except String ParseOut) : Except String ParseOut :=
  match x with
  | .error e => .error e
  | .ok o =>
    match y with
    | .error e => .error e
    | .ok o2 => .ok ⟨o.result ++ o2.result, o.diags ++ o2.diags⟩

/-- Fold `combine2` over the per-token results. -/
def combineResults (rs : List (Except String ParseOut)) : Except String ParseOut :=
  rs.foldr combine2 (.ok ⟨[], []⟩)

/-- The result list of a parse that did not raise. -/
def okResult : Except String ParseOut → Option (List Int)
  | .ok o => some o.result
  | .error _ => none

/-! ## The set parser (`parse_user_input`) -/

def allKeyword : List Char := "all".data

/-- The source's zero-step guard `if step == 0`.  At that point `step` is
either the *string* regex group (when the step group matched) or the int 1
(when it did not); in Python a str/int comparison is always `False`, and
`1 == 0` is `False`, so the guard never fires.  The embedding keeps the
comparison exactly as performed. -/
def stepZeroGuard : Option Int → Bool
  | none => decide ((1 : Int) = 0)
  | some _ => false

/-- The colon-range arm of `parse_user_input` after the regex groups
`start`/`end`/`step` have been extracted (source lines 193–216): the dead
zero-step guard, the `start > end` rejection, the swap of the bounds when
the step is negative, the bounds warning, and the final `range` call (which
raises when the step literal is 0).  `s` is the original token, used only
in the warning message. -/
def colonRangeEval (s : List Char) (a b : Int) (stg : Option Int)
    (d : Int × Int) (hdr : List Char) : Except String ParseOut :=
  if stepZeroGuard stg then .ok ⟨[], hdrPlus hdr [.zeroStep]⟩
  else if b < a then .ok ⟨[], hdrPlus hdr [.startGreaterEnd]⟩
  else
    let stp : Int := match stg with | none => 1 | some v => v
    let a2 := if stp < 0 then b else a
    let b2 := if stp < 0 then a else b
    let warns := if a2 < d.1 ∨ d.2 < b2 then hdrPlus hdr [.rangeOutOfRange s d] else []
    match pyRange a2 (b2 + 1) stp with
    | .error e => .error e
    | .ok l => .ok ⟨l, warns⟩

/-- The `start<sep>end` arm of `parse_user_input` (source lines 220–238):
`s.split(sep)` must yield exactly two int-convertible parts (otherwise the
`ValueError` is caught and reported), `start > end` is rejected, the bounds
are checked, and the inclusive ascending range is returned. -/
def sepRangeEval (s : List Char) (sep : Char) (d : Int × Int) (hdr : List Char) :
    Except String ParseOut :=
  match pySplit s sep with
  | [p1, p2] =>
    (match pyIntOf p1, pyIntOf p2 with
     | some a, some b =>
       if b < a then .ok ⟨[], hdrPlus hdr [.startGreaterEnd]⟩
       else
         let warns :=
           if a < d.1 ∨ d.2 < b then
             hdrPlus hdr [.rangeOutOfRange (intChars a ++ sep :: intChars b) d]
           else []
         .ok ⟨pyRangeList a (b + 1) 1, warns⟩
     | _, _ => .ok ⟨[], hdrPlus hdr [.badRange s]⟩)
  | _ => .ok ⟨[], hdrPlus hdr [.badRange s]⟩

/-- The single-token tail of the string case of `parse_user_input` (source
lines 179–243): pure digit string, colon range (matched against the
lowercased token, anchored at the start only), separator range, and the
final unparseable error. -/
def parseSingleToken (s : List Char) (d : Int × Int) (sep : Char) (hdr : List Char) :
    Except String ParseOut :=
  if pyIsDigitStr s then
    .ok ⟨[(digitsVal s : Int)], boundWarn (digitsVal s : Int) d hdr⟩
  else
    match colonMatch (pyLower s) with
    | some (a, b, stg, _) => colonRangeEval s a b stg d hdr
    | none =>
      if sep ∈ s then sepRangeEval s sep d hdr
      else .ok ⟨[], hdrPlus hdr [.unparseable s]⟩

/-- The recursive call `parse_user_input(item, ...)` made on one token of a
split string.  A token produced by `splitTokens` contains no separator
characters, so its own split is a singleton and the call reduces to the
empty-string check, the `"all"` check and the single-token tail; the lemma
`parseTokenFull_eq_parseStrFull` below proves this inlining faithful. -/
def parseTokenFull (tok : List Char) (d : Int × Int) (sep : Char) (hdr : List Char) :
    Except String ParseOut :=
  if tok = [] then .ok ⟨[], []⟩
  else if tok = allKeyword then .ok ⟨pyRangeList d.1 (d.2 + 1) 1, []⟩
  else parseSingleToken tok d sep hdr

/-- The string case of `parse_user_input` (source lines 158–243): empty
string, the case-sensitive `"all"` keyword, the comma/whitespace split with
recursive parsing of each token when more than one is present, and the
single-token tail. -/
def parseStrFull (s : List Char) (d : Int × Int) (sep : Char) (hdr : List Char) :
    Except String ParseOut :=
  if s = [] then .ok ⟨[], []⟩
  else if s = allKeyword then .ok ⟨pyRangeList d.1 (d.2 + 1) 1, []⟩
  else
    if 1 < (splitTokens s).length then
      combineResults ((splitTokens s).map (fun t => parseTokenFull t d sep hdr))
    else parseSingleToken s d sep hdr

/-- The type of values `parse_user_input` can receive: int, str, list
(possibly nested), or anything else (`other`, rejected by the isinstance
check; inside a list such elements are silently skipped). -/
inductive UserInput where
  | int (n : Int)
  | str (s : List Char)
  | list (xs : List UserInput)
  | other

mutual

/-- The list case of `parse_user_input` (source lines 247–260): ints are
bound-checked and appended, strings and nested lists are parsed recursively
and extended, anything else is skipped. -/
def parseList (d : Int × Int) (sep : Char) (hdr : List Char) :
    List UserInput → Except String ParseOut
  | [] => .ok ⟨[], []⟩
  | x :: xs => combine2 (parseElem d sep hdr x) (parseList d sep hdr xs)
termination_by structural xs => xs

/-- One element of a list input. -/
def parseElem (d : Int × Int) (sep : Char) (hdr : List Char) :
    UserInput → Except String ParseOut
  | .int n => .ok ⟨[n], boundWarn n d hdr⟩
  | .str s => parseStrFull s d sep hdr
  | .list l => parseList d sep hdr l
  | .other => .ok ⟨[], []⟩
termination_by structural u => u

end

/-- `parse_user_input(user_input, default_range, header_text, ...,
range_separator)` (source lines 87–260).  `d` is the default range, `sep`
the range separator (callers always use the default `'-'`), `hdr` the
header text. -/
def parseUserInput (u : UserInput) (d : Int × Int) (sep : Char) (hdr : List Char) :
    Except String ParseOut :=
  match u with
  | .other => .ok ⟨[], hdrPlus hdr [.wrongType]⟩
  | .int n => .ok ⟨[n], boundWarn n d hdr⟩
  | .str s => parseStrFull s d sep hdr
  | .list xs => parseList d sep hdr xs

/-! ## Rounding

Python's `round` rounds half to even.  The source computes the payload with
float arithmetic; the embedding idealises floats as exact rationals. -/

/-- Python `round(q)` (half to even). -/
def pyRound (q : ℚ) : Int :=
  if q - ⌊q⌋ < 1/2 then ⌊q⌋
  else if (1 : ℚ)/2 < q - ⌊q⌋ then ⌊q⌋ + 1
  else if ⌊q⌋ % 2 = 0 then ⌊q⌋ else ⌊q⌋ + 1

/-- Python `round(q, 2)`. -/
def pyRound2 (q : ℚ) : ℚ := (pyRound (q * 100) : ℚ) / 100

/-- Python `str` of a two-decimal float result: integer part, a dot, and one
or two fractional digits (trailing zero trimmed, at least one digit kept,
as in `str(100.0) = "100.0"`, `str(0.79) = "0.79"`, `str(0.05) = "0.05"`). -/
def decimalChars (q : ℚ) : List Char :=
  let k := pyRound (q * 100)
  let sign := if k < 0 then ['-'] else ([] : List Char)
  let a := k.natAbs
  let fp := a % 100
  sign ++ natChars (a / 100) ++ '.' ::
    (if fp % 10 = 0 then natChars (fp / 10)
     else if fp < 10 then '0' :: natChars fp
     else natChars fp)

/-! ## `str.replace` -/

/-- Python `s.replace(pat, rep)`: all non-overlapping occurrences, left to
right.  Structured with explicit fuel (each step consumes at least one
character of `s`, so `s.length` units are exact); the patterns used by the
source are never empty. -/
def pyReplaceFuel : Nat → List Char → List Char → List Char → List Char
  | 0, s, _, _ => s
  | fuel + 1, s, pat, rep =>
    match s with
    | [] => []
    | c :: rest =>
      if pat ≠ [] ∧ pat.isPrefixOf (c :: rest) then
        rep ++ pyReplaceFuel fuel ((c :: rest).drop pat.length) pat rep
      else c :: pyReplaceFuel fuel rest pat rep

def pyReplace (s pat rep : List Char) : List Char := pyReplaceFuel s.length s pat rep

/-- Contiguous-substring test (Python `pat in s` on strings). -/
def isPrefixB : List Char → List Char → Bool
  | [], _ => true
  | _ :: _, [] => false
  | c :: p, e :: s => c = e && isPrefixB p s

def isSubstrB (pat : List Char) : List Char → Bool
  | [] => isPrefixB pat []
  | c :: rest => isPrefixB pat (c :: rest) || isSubstrB pat rest

/-! ## The mapping field (`Command.parse_mapping`) -/

/-- Python `float(s)`, simplified to an optional sign and a decimal literal
`digits[.digits]` with at least one digit (the exponent / `inf` / `nan`
forms never occur in the configurations at issue). -/
def pyFloatOf : List Char → Option ℚ
  | '+' :: r => pyFloatCore r
  | '-' :: r => (pyFloatCore r).map Neg.neg
  | s => pyFloatCore s
where
  pyFloatCore (t : List Char) : Option ℚ :=
    let ip := (takeDigits t).1
    match (takeDigits t).2 with
    | '.' :: r2 =>
      let fp := (takeDigits r2).1
      if (takeDigits r2).2 = [] ∧ (ip ≠ [] ∨ fp ≠ []) then
        some ((digitsVal ip : ℚ) + (digitsVal fp : ℚ) / (10 ^ fp.length))
      else none
    | [] => if ip ≠ [] then some ((digitsVal ip : ℚ)) else none
    | _ => none

/-- `[float(item) for item in s.split(',')]` — `none` when any conversion
raises `ValueError`. -/
def pyFloatList (s : List Char) : Option (List ℚ) :=
  (pySplit s ',').mapM pyFloatOf

def defaultMapping : TomlVal := .list [.int 0, .int 127]

/-- The `Command: <name>` line printed before a mapping diagnostic. -/
def cmdHdr (nm : List Char) : List Char := "Command: ".data ++ nm

/-- `Command.parse_mapping` (source lines 508–540) on the raw `mapping`
value; returns the new value of the field and the printed diagnostics.
A list is kept as-is iff it has exactly two elements (of any type); the
string `"all"` becomes the default; any other string is split on commas and
converted with `float`.  When that conversion raises `ValueError` the
source prints the error but — since the assignment in the `try` block never
happened — leaves the field holding the original *string* instead of the
documented `[0, 127]` fallback.  A value of any other type falls through
the `if`/`elif` chain untouched, with no diagnostic. -/
def parseMapping (nm : List Char) (m : TomlVal) : TomlVal × List Diag :=
  match m with
  | .list xs =>
    if xs.length = 2 then (m, [])
    else (defaultMapping, [.header (cmdHdr nm), .mappingError m])
  | .str s =>
    if s = allKeyword then (defaultMapping, [])
    else
      (match pyFloatList s with
       | none => (m, [.header (cmdHdr nm), .mappingError m])
       | some qs =>
         if qs.length ≠ 2 then
           (defaultMapping, [.header (cmdHdr nm), .mappingError defaultMapping])
         else (.list (qs.map .float), []))
  | _ => (m, [])

/-! ## The ports field (`Command.parse_ports`) -/

/-- A `ports` configuration value: a single name or a list of names. -/
inductive PortsVal where
  | str (s : List Char)
  | list (xs : List (List Char))
deriving DecidableEq

/-- `Command.parse_ports` (source lines 548–565): warn on an empty string,
turn `"all"` into `["all"]`, wrap a single name, and lowercase every
name. -/
def parsePorts (nm : List Char) (p : PortsVal) : List (List Char) × List Diag :=
  let warns := if p = .str [] then [Diag.header (cmdHdr nm), Diag.emptyPorts] else []
  match p with
  | .str s => (if s = allKeyword then [allKeyword] else [pyLower s], warns)
  | .list xs => (xs.map pyLower, warns)

/-! ## The Command class -/

/-- One `[[commands]]` table of the configuration file, with the fields
`Command.__init__` reads (`config.get`); `none` is a missing key.  The
`event` field is kept as an optional string: a missing event behaves via
`str(None) = "None"`, which fails the event-kind check. -/
structure Config where
  active : Option Bool := none
  channels : Option UserInput := none
  command : Option (List Char) := none
  control : Option UserInput := none
  event : Option (List Char) := none
  mapping : Option TomlVal := none
  name : Option (List Char) := none
  note : Option UserInput := none
  ports : Option PortsVal := none
  values : Option UserInput := none
  velocities : Option UserInput := none

/-- `if not cmd: continue` — an empty TOML table is skipped. -/
def Config.isEmptyTable (c : Config) : Bool :=
  c.active.isNone && c.channels.isNone && c.command.isNone && c.control.isNone &&
  c.event.isNone && c.mapping.isNone && c.name.isNone && c.note.isNone &&
  c.ports.isNone && c.values.isNone && c.velocities.isNone

/-- A `Command` object after `__init__` has finished: the parsed fields and
the diagnostics printed during construction. -/
structure Command where
  active : Bool
  channels : List Int
  command : Option (List Char)
  control : List Int
  event : Option (List Char)
  mapping : TomlVal
  name : Option (List Char)
  note : List Int
  ports : List (List Char)
  values : List Int
  velocities : List Int
  diags : List Diag

def noteOnK : List Char := "note_on".data
def noteOffK : List Char := "note_off".data
def controlChangeK : List Char := "control_change".data

def validEventKinds : List (List Char) := [noteOnK, noteOffK, controlChangeK]

/-- `str(self.event)` — `str(None)` is `"None"`. -/
def eventTypeStr (c : Config) : List Char :=
  match c.event with
  | some e => e
  | none => "None".data

/-- `event_type.lower() in ('note_on', 'note_off', 'control_change')`. -/
def validEvent (c : Config) : Bool :=
  decide (pyLower (eventTypeStr c) ∈ validEventKinds)

/-- `f"{self.name}"` in the header text (`str(None) = "None"`). -/
def nameRepr (c : Config) : List Char :=
  match c.name with
  | some n => n
  | none => "None".data

def hdrOf (field : List Char) (nm : List Char) : List Char :=
  "Command (".data ++ field ++ " field): ".data ++ nm ++ ['\n']

/-- The `Command` produced when the event kind is unrecognized: `__init__`
prints the error, sets `active = False` and returns before any field
parsing, leaving the raw configuration values in place; they are never read
because `execute` returns immediately for an inactive command. -/
def Command.mkInactive (cfg : Config) : Command :=
  { active := false
    channels := []
    command := cfg.command
    control := []
    event := cfg.event
    mapping := cfg.mapping.getD defaultMapping
    name := cfg.name
    note := []
    ports := []
    values := []
    velocities := []
    diags := [.invalidEvent] }

/-- `Command.__init__` (source lines 395–426): read the fields with their
defaults, validate the event kind (deactivating the command on failure),
then parse channels, controls, mapping, notes, ports, values and
velocities, in that order.  A `ValueError` raised by a field parse (the
zero-step raise) propagates. -/
def Command.init (cfg : Config) : Except String Command :=
  if validEvent cfg then
    let nm := nameRepr cfg
    match parseUserInput (cfg.channels.getD (.str allKeyword)) (1, 16) '-' (hdrOf "channels".data nm) with
    | .error e => .error e
    | .ok ochans =>
    match parseUserInput (cfg.control.getD (.str allKeyword)) (0, 127) '-' (hdrOf "controls".data nm) with
    | .error e => .error e
    | .ok octrl =>
    let (mp, dmap) := parseMapping nm (cfg.mapping.getD defaultMapping)
    match parseUserInput (cfg.note.getD (.str allKeyword)) (0, 127) '-' (hdrOf "note".data nm) with
    | .error e => .error e
    | .ok onote =>
    let (prts, dports) := parsePorts nm (cfg.ports.getD (.str allKeyword))
    match parseUserInput (cfg.values.getD (.str allKeyword)) (0, 127) '-' (hdrOf "values".data nm) with
    | .error e => .error e
    | .ok ovals =>
    match parseUserInput (cfg.velocities.getD (.str allKeyword)) (0, 127) '-' (hdrOf "velocities".data nm) with
    | .error e => .error e
    | .ok ovels =>
    .ok { active := cfg.active.getD true
          channels := ochans.result
          command := cfg.command
          control := octrl.result
          event := cfg.event
          mapping := mp
          name := cfg.name
          note := onote.result
          ports := prts
          values := ovals.result
          velocities := ovels.result
          diags := ochans.diags ++ octrl.diags ++ dmap ++ onote.diags ++ dports ++ ovals.diags ++ ovels.diags }
  else .ok (Command.mkInactive cfg)

/-! ## Message matching and dispatch (`Command.execute`) -/

/-- One incoming MIDI message: its type string, 0-based channel, and the
kind-specific fields (only the ones matching `type` are ever read). -/
structure MidiMessage where
  type : List Char
  channel : Int
  note : Int
  velocity : Int
  control : Int
  value : Int

/-- One dispatch request: the derived value, the computed percentage and
decimal, and the fully substituted command string handed to
`subprocess.run`. -/
structure Dispatch where
  value : Int
  percentage : Int
  decimal : ℚ
  command : List Char

/-- Outcome of one `Command.execute` call. -/
inductive ExecResult where
  | noMatch
  | dispatch (d : Dispatch)
  | raise (e : String)

/-- `self.mapping[0]` and `self.mapping[1]` as numbers.  Python booleans are
ints; indexing or subtracting anything non-numeric raises (`TypeError` /
`IndexError` — the exact exception class is not modelled). -/
def mappingNums : TomlVal → Except String (ℚ × ℚ)
  | .list (a :: b :: _) =>
    (match a, b with
     | .int x, .int y => .ok ((x : ℚ), (y : ℚ))
     | .int x, .float y => .ok ((x : ℚ), y)
     | .float x, .int y => .ok (x, (y : ℚ))
     | .float x, .float y => .ok (x, y)
     | .boolean x, .int y => .ok (if x then 1 else 0, (y : ℚ))
     | .int x, .boolean y => .ok ((x : ℚ), if y then 1 else 0)
     | .boolean x, .boolean y => .ok (if x then 1 else 0, if y then 1 else 0)
     | .boolean x, .float y => .ok (if x then 1 else 0, y)
     | .float x, .boolean y => .ok (x, if y then 1 else 0)
     | _, _ => .error "TypeError: mapping entries are not numbers")
  | _ => .error "TypeError: mapping is not a list of two numbers"

def velocityTok : List Char := "$VELOCITY".data
def valueTok : List Char := "$VALUE".data
def percentageTok : List Char := "$PERCENTAGE".data
def decimalTok : List Char := "$DECIMAL".data

/-- The payload computation and template substitution at the end of
`Command.execute` (source lines 483–495).  In the source the percentage is
computed just before the mapping subscripts; a mapping of the wrong shape
raises at the `decimal` line, and a missing `command` string raises
`AttributeError` at the first `replace`. -/
def Command.finish (c : Command) (value : Int) : ExecResult :=
  match mappingNums c.mapping with
  | .error e => .raise e
  | .ok (lo, hi) =>
    let percentage : Int := pyRound ((value : ℚ) / 127 * 100)
    let decimal : ℚ := pyRound2 (lo + (value : ℚ) / 127 * (hi - lo))
    match c.command with
    | none => .raise "AttributeError: NoneType has no attribute replace"
    | some t =>
      let t1 := pyReplace t velocityTok (intChars value)
      let t2 := pyReplace t1 valueTok (intChars value)
      let t3 := pyReplace t2 percentageTok (intChars percentage)
      let t4 := pyReplace t3 decimalTok (decimalChars decimal)
      .dispatch ⟨value, percentage, decimal, t4⟩

/-- `Command.execute` (source lines 429–495): the active flag, the event
type, the port substring match, the 1-based channel match, then the
kind-specific note/velocity or control/value membership tests, and finally
the payload computation and dispatch.  After `parse_notes` the `note` field
is always a list, so the source's `self.note != 'all'` comparison (list
versus string) is always true and the note test is a plain membership
test. -/
def Command.execute (c : Command) (msg : MidiMessage) (portName : List Char) : ExecResult :=
  if c.active = false then .noMatch
  else if ¬ c.event = some msg.type then .noMatch
  else if c.ports ≠ [allKeyword] ∧ (c.ports.any fun p => isSubstrB p (pyLower portName)) = false then .noMatch
  else if (msg.channel + 1) ∉ c.channels then .noMatch
  else if c.event = some noteOnK ∨ c.event = some noteOffK then
    if msg.note ∉ c.note then .noMatch
    else if msg.velocity ∉ c.velocities then .noMatch
    else c.finish msg.velocity
  else if c.event = some controlChangeK then
    if msg.control ∉ c.control then .noMatch
    else if msg.value ∉ c.values then .noMatch
    else c.finish msg.value
  else c.finish 0

/-! ## The engine loop -/

/-- The per-message command loop of `MIDILauncher.run` (source lines
378–380): every stored command is offered the message, in order; an
uncaught exception from one `execute` aborts the loop. -/
def runCommands : List Command → MidiMessage → List Char → Except String (List Dispatch)
  | [], _, _ => .ok []
  | c :: cs, msg, port =>
    match c.execute msg port with
    | .raise e => .error e
    | .noMatch => runCommands cs msg port
    | .dispatch d =>
      match runCommands cs msg port with
      | .error e => .error e
      | .ok ds => .ok (d :: ds)

/-- The dispatch (if any) a single command produces for a message. -/
def dispatchOpt (c : Command) (msg : MidiMessage) (port : List Char) : Option Dispatch :=
  match c.execute msg port with
  | .dispatch d => some d
  | _ => none

/-- The command-construction loop of `MIDILauncher.parse_config_file`
(source lines 331–335): empty tables are skipped, every other table
produces a `Command` that is appended — active or not. -/
def buildCommands : List Config → Except String (List Command)
  | [] => .ok []
  | cfg :: rest =>
    if cfg.isEmptyTable then buildCommands rest
    else
      match Command.init cfg with
      | .error e => .error e
      | .ok c =>
        match buildCommands rest with
        | .error e => .error e
        | .ok cs => .ok (c :: cs)

/-! ## Concrete commands and messages used by the witnesses -/

def dummyDispatch : Dispatch := ⟨0, 0, 0, []⟩

/-- A control-change message on channel 1, control 70, value 64. -/
def engMsg : MidiMessage := ⟨"control_change".data, 0, 0, 0, 70, 64⟩

/-- Two active commands that both match `engMsg`. -/
def engCmd1 : Command :=
  { active := true
    channels := pyRangeList 1 17 1
    command := some "first $VALUE".data
    control := pyRangeList 0 128 1
    event := some controlChangeK
    mapping := defaultMapping
    name := some ['1']
    note := []
    ports := [allKeyword]
    values := pyRangeList 0 128 1
    velocities := []
    diags := [] }

def engCmd2 : Command :=
  { engCmd1 with name := some ['2'], command := some "second".data }

def engDsp1 : Dispatch := (dispatchOpt engCmd1 engMsg "pad".data).getD dummyDispatch

def engDsp2 : Dispatch := (dispatchOpt engCmd2 engMsg "pad".data).getD dummyDispatch

/-- The example command of the help text: `note_on` on notes 64–66. -/
def cmd9 : Command :=
  { active := true
    channels := pyRangeList 1 17 1
    command := some "echo $PERCENTAGE".data
    control := pyRangeList 0 128 1
    event := some noteOnK
    mapping := defaultMapping
    name := some "example".data
    note := [64, 65, 66]
    ports := [allKeyword]
    values := pyRangeList 0 128 1
    velocities := pyRangeList 0 128 1
    diags := [] }

/-- A note-on message: note 64, velocity 100, channel 1 (0-based 0). -/
def msg9 : MidiMessage := ⟨noteOnK, 0, 64, 100, 0, 0⟩

def dsp9 : Dispatch := (dispatchOpt cmd9 msg9 "pad".data).getD dummyDispatch

/-- A configuration with a valid event kind and an unparseable mapping
string. -/
def cfg3 : Config :=
  { event := some noteOnK
    mapping := some (.str "abc".data)
    command := some "echo".data
    name := some ['m'] }

def cmd3 : Command := (Command.init cfg3).toOption.getD (Command.mkInactive cfg3)

/-! ## Lemmas about splitting -/

theorem splitAuxM_nosep (s : List Char) : ∀ acc : List Char, sepFreeB s = true →
    splitAuxM false s acc = [acc.reverse ++ s] := by
  induction s with
  | nil => intro acc _; simp [splitAuxM]
  | cons c rest ih =>
    intro acc h
    rw [sepFreeB, List.all_cons, Bool.and_eq_true] at h
    obtain ⟨hc, hr⟩ := h
    rw [Bool.not_eq_eq_eq_not, Bool.not_true] at hc
    rw [splitAuxM, if_neg (by simp), if_neg (by simp [hc]), ih (c :: acc) hr]
    simp

theorem splitAuxM_drop_nosep (s : List Char) (h : sepFreeB s = true) :
    splitAuxM true s [] = [s] := by
  cases s with
  | nil => simp [splitAuxM]
  | cons c rest =>
    rw [sepFreeB, List.all_cons, Bool.and_eq_true] at h
    obtain ⟨hc, hr⟩ := h
    rw [Bool.not_eq_eq_eq_not, Bool.not_true] at hc
    have hc2 : decide (c = ',') = false ∧ pyWs c = false := by simpa using hc
    rw [splitAuxM, if_neg (by simp [hc2.2]), if_neg (by simp [hc2.1, hc2.2]),
      splitAuxM_nosep rest [c] hr]
    simp

theorem splitTokens_comma (a b : List Char) (ha : sepFreeB a = true)
    (hb : sepFreeB b = true) : splitTokens (a ++ ',' :: b) = [a, b] := by
  rw [splitTokens]
  suffices h : ∀ acc : List Char,
      splitAuxM false (a ++ ',' :: b) acc = [acc.reverse ++ a, b] by
    simpa using h []
  induction a with
  | nil =>
    intro acc
    rw [List.nil_append, splitAuxM, if_neg (by simp), if_pos (by simp),
      splitAuxM_drop_nosep b hb]
    simp
  | cons c rest ih =>
    intro acc
    rw [sepFreeB, List.all_cons, Bool.and_eq_true] at ha
    obtain ⟨hc, hr⟩ := ha
    rw [Bool.not_eq_eq_eq_not, Bool.not_true] at hc
    rw [List.cons_append, splitAuxM, if_neg (by simp), if_neg (by simp [hc]),
      ih hr (c :: acc)]
    simp

theorem splitTokens_nosep (s : List Char) (h : sepFreeB s = true) :
    splitTokens s = [s] := by
  rw [splitTokens, splitAuxM_nosep s [] h]; rfl

/-- Every token produced by the splitter is free of separator characters;
this is what justifies inlining the source's recursive call on a token as
`parseTokenFull` (see `parseTokenFull_eq_parseStrFull`). -/
theorem splitTokens_item_sepFree (s : List Char) :
    ∀ t ∈ splitTokens s, sepFreeB t = true := by
  rw [splitTokens]
  suffices h : ∀ m : Bool, ∀ acc : List Char, sepFreeB acc.reverse = true →
      ∀ t ∈ splitAuxM m s acc, sepFreeB t = true from h false [] rfl
  induction s with
  | nil =>
    intro m acc hacc t ht
    rw [splitAuxM] at ht
    simp only [List.mem_singleton] at ht
    simpa [ht] using hacc
  | cons c rest ih =>
    intro m acc hacc t ht
    rw [splitAuxM] at ht
    by_cases h1 : (m && pyWs c) = true
    · rw [if_pos h1] at ht
      exact ih true acc hacc t ht
    · rw [if_neg h1] at ht
      by_cases h2 : (decide (c = ',') || pyWs c) = true
      · rw [if_pos h2] at ht
        rcases List.mem_cons.mp ht with h3 | h3
        · simpa [h3] using hacc
        · exact ih true [] rfl t h3
      · rw [if_neg h2] at ht
        refine ih false (c :: acc) ?_ t ht
        rw [List.reverse_cons, sepFreeB, List.all_append]
        simp only [Bool.and_eq_true]
        exact ⟨hacc, by simpa using h2⟩

/-- The source parses each token of a split string with a recursive
`parse_user_input` call; on a separator-free token that call reduces to the
empty-string check, the `"all"` check, and the single-token tail, which is
exactly `parseTokenFull`. -/
theorem parseTokenFull_eq_parseStrFull (tok : List Char) (d : Int × Int)
    (sep : Char) (hdr : List Char) (h : sepFreeB tok = true) :
    parseUserInput (.str tok) d sep hdr = parseTokenFull tok d sep hdr := by
  show parseStrFull tok d sep hdr = parseTokenFull tok d sep hdr
  rw [parseStrFull, parseTokenFull, splitTokens_nosep tok h]
  simp

/-! ## Lemmas about ascending unit-step ranges -/

theorem pyRangeLen_one (lo hi : Int) : pyRangeLen lo (hi + 1) 1 = (hi + 1 - lo).toNat := by
  rw [pyRangeLen, Int.fdiv_one]
  congr 1
  omega

theorem pyRangeList_one_length (lo hi : Int) :
    (pyRangeList lo (hi + 1) 1).length = (hi + 1 - lo).toNat := by
  rw [pyRangeList, List.length_map, List.length_range, pyRangeLen_one]

theorem pyRangeList_one_mem (lo hi n : Int) :
    n ∈ pyRangeList lo (hi + 1) 1 ↔ lo ≤ n ∧ n ≤ hi := by
  rw [pyRangeList, List.mem_map]
  constructor
  · rintro ⟨i, hi2, rfl⟩
    rw [List.mem_range, pyRangeLen_one] at hi2
    omega
  · rintro ⟨h1, h2⟩
    refine ⟨(n - lo).toNat, ?_, ?_⟩
    · rw [List.mem_range, pyRangeLen_one]; omega
    · omega

theorem pyRangeList_one_pairwise (lo hi : Int) :
    (pyRangeList lo (hi + 1) 1).Pairwise (· < ·) := by
  rw [pyRangeList]
  refine List.Pairwise.map _ (fun a b hab => ?_) (List.pairwise_lt_range _)
  omega

/-! ## Claim theorems -/

/-- C4: for every pair `(lo, hi)` with `lo ≤ hi`, `parse("all")` with
default range `(lo, hi)` returns exactly the ascending list
`[lo, lo+1, ..., hi]` of length `hi - lo + 1`, with no diagnostics. -/
theorem parse_all_ascending (lo hi : Int) (sep : Char) (hdr : List Char)
    (h : lo ≤ hi) :
    parseUserInput (.str "all".data) (lo, hi) sep hdr =
      .ok ⟨pyRangeList lo (hi + 1) 1, []⟩ ∧
    ((pyRangeList lo (hi + 1) 1).length : Int) = hi - lo + 1 ∧
    (∀ n : Int, n ∈ pyRangeList lo (hi + 1) 1 ↔ lo ≤ n ∧ n ≤ hi) ∧
    (pyRangeList lo (hi + 1) 1).Pairwise (· < ·) := by
  refine ⟨rfl, ?_, fun n => pyRangeList_one_mem lo hi n, pyRangeList_one_pairwise lo hi⟩
  rw [pyRangeList_one_length]
  omega

/-- Witness for C4 at the concrete range `(2, 5)`. -/
theorem parse_all_ascending_witness :
    parseUserInput (.str "all".data) (2, 5) '-' [] = .ok ⟨[2, 3, 4, 5], []⟩ ∧
    (2 : Int) ≤ 5 := by
  refine ⟨?_, by decide⟩
  have h := (parse_all_ascending 2 5 '-' [] (by decide)).1
  exact h.trans (by rfl)

/-- C5: parsing a comma-joined pair of separator-free tokens concatenates
the two parses (results and printed diagnostics, order preserved,
duplicates kept), and a list input concatenates its elements' parses in
element order, as in `parse([1, "2:4", 3]) = [1, 2, 3, 4, 3]`. -/
theorem parse_concat :
    (∀ (a b : List Char) (d : Int × Int) (sep : Char) (hdr : List Char)
       (oa ob : ParseOut),
       sepFreeB a = true → sepFreeB b = true →
       parseUserInput (.str a) d sep hdr = .ok oa →
       parseUserInput (.str b) d sep hdr = .ok ob →
       parseUserInput (.str (a ++ ',' :: b)) d sep hdr =
         .ok ⟨oa.result ++ ob.result, oa.diags ++ ob.diags⟩) ∧
    parseUserInput (.list [.int 1, .str "2:4".data, .int 3]) (0, 127) '-' [] =
      .ok ⟨[1, 2, 3, 4, 3], []⟩ := by
  constructor
  · intro a b d sep hdr oa ob ha hb hpa hpb
    show parseStrFull (a ++ ',' :: b) d sep hdr = _
    rw [parseStrFull, if_neg (by simp), if_neg ?diff]
    case diff =>
      intro hEq
      have hmem : ',' ∈ allKeyword := hEq ▸ List.mem_append_right a (List.mem_cons_self ',' b)
      exact absurd hmem (by decide)
    rw [splitTokens_comma a b ha hb]
    rw [if_pos (by simp)]
    have hta : parseTokenFull a d sep hdr = .ok oa :=
      (parseTokenFull_eq_parseStrFull a d sep hdr ha).symm.trans hpa
    have htb : parseTokenFull b d sep hdr = .ok ob :=
      (parseTokenFull_eq_parseStrFull b d sep hdr hb).symm.trans hpb
    simp [combineResults, combine2, hta, htb]
  · rfl

/-- Witness for C5 on the tokens `"1"` and `"2:4"`. -/
theorem parse_concat_witness :
    parseUserInput (.str "1,2:4".data) (0, 127) '-' [] = .ok ⟨[1, 2, 3, 4], []⟩ := by
  have h := parse_concat.1 "1".data "2:4".data (0, 127) '-' [] ⟨[1], []⟩ ⟨[2, 3, 4], []⟩
    (by decide) (by decide) (by rfl) (by rfl)
  exact h.trans (by rfl)

/-- C8: `parse(n)` for an integer `n` always returns `[n]` without raising;
the only possible diagnostic is the out-of-range warning, emitted exactly
when `n` lies outside the default range, and it is a warning, not an
error. -/
theorem parse_int_unconditional (n : Int) (d : Int × Int) (sep : Char)
    (hdr : List Char) :
    parseUserInput (.int n) d sep hdr = .ok ⟨[n], boundWarn n d hdr⟩ ∧
    (boundWarn n d hdr = [] ↔ d.1 ≤ n ∧ n ≤ d.2) ∧
    ∀ g ∈ boundWarn n d hdr, g.isError = false := by
  refine ⟨rfl, ?_, ?_⟩
  · by_cases hc : n < d.1 ∨ d.2 < n
    · rw [boundWarn, if_pos hc, hdrPlus]
      constructor
      · intro h
        exact absurd h (by simp)
      · intro h; omega
    · rw [boundWarn, if_neg hc]
      simp only [true_iff]
      omega
  · intro g hg
    rw [boundWarn] at hg
    by_cases hc : n < d.1 ∨ d.2 < n
    · rw [if_pos hc, hdrPlus] at hg
      rcases List.mem_append.mp hg with h1 | h1
      · rcases List.mem_ite_nil_left.mp h1 with ⟨_, h2⟩
        rw [List.mem_singleton.mp h2]; rfl
      · rw [List.mem_singleton.mp h1]; rfl
    · rw [if_neg hc] at hg
      exact absurd hg (List.not_mem_nil g)

/-- Witness for C8 at the out-of-range value 200 with default `(0, 127)`. -/
theorem parse_int_unconditional_witness :
    parseUserInput (.int 200) (0, 127) '-' [] =
      .ok ⟨[200], [Diag.valueOutOfRange 200 (0, 127)]⟩ ∧
    Diag.isError (.valueOutOfRange 200 (0, 127)) = false := by
  refine ⟨(parse_int_unconditional 200 (0, 127) '-' []).1.trans (by rfl), ?_⟩
  exact (parse_int_unconditional 200 (0, 127) '-' []).2.2
    (.valueOutOfRange 200 (0, 127)) (List.mem_singleton.mpr rfl)

/-- C1 counterexample: `parse("5:1:-1")` with default range `(0, 127)` does
not return `[1, 2, 3, 4, 5]`; it returns the empty list (the
start-greater-than-end rejection fires before the negative-step swap). -/
theorem colon_negative_step_counterexample :
    okResult (parseUserInput (.str "5:1:-1".data) (0, 127) '-' []) = some [] ∧
    okResult (parseUserInput (.str "5:1:-1".data) (0, 127) '-' []) ≠ some [1, 2, 3, 4, 5] :=
  ⟨by decide, by decide⟩

/-- C1 (amended): for a colon token with negative step, the parser first
rejects `start > end` with an error and an empty list — so
`parse("5:1:-1") = []` — and only when `start ≤ end` swaps the bounds and
builds `range(end, start + 1, step)` with the still-negative step, a
descending list: `parse("1:5:-1") = [5, 4, 3]`. -/
theorem colon_negative_step_swap :
    (∀ (s : List Char) (a b stp : Int) (d : Int × Int) (hdr : List Char),
       stp < 0 → b < a →
       colonRangeEval s a b (some stp) d hdr = .ok ⟨[], hdrPlus hdr [.startGreaterEnd]⟩) ∧
    (∀ (s : List Char) (a b stp : Int) (d : Int × Int) (hdr : List Char),
       stp < 0 → a ≤ b →
       okResult (colonRangeEval s a b (some stp) d hdr) =
         some (pyRangeList b (a + 1) stp)) ∧
    okResult (parseUserInput (.str "5:1:-1".data) (0, 127) '-' []) = some [] ∧
    okResult (parseUserInput (.str "1:5:-1".data) (0, 127) '-' []) = some [5, 4, 3] := by
  refine ⟨?_, ?_, by decide, by decide⟩
  · intro s a b stp d hdr _ hba
    rw [colonRangeEval, if_neg (by simp [stepZeroGuard]), if_pos hba]
  · intro s a b stp d hdr hneg hab
    rw [colonRangeEval, if_neg (by simp [stepZeroGuard]), if_neg (by omega)]
    simp only [if_pos hneg, pyRange, if_neg (by omega : ¬ stp = 0)]
    rfl

/-- Witness for the amended C1 at the concrete token values of `"5:1:-1"`
and `"1:5:-1"`. -/
theorem colon_negative_step_swap_witness :
    colonRangeEval "5:1:-1".data 5 1 (some (-1)) (0, 127) [] =
      .ok ⟨[], [Diag.startGreaterEnd]⟩ ∧
    okResult (colonRangeEval "1:5:-1".data 1 5 (some (-1)) (0, 127) []) =
      some [5, 4, 3] := by
  constructor
  · exact (colon_negative_step_swap.1 "5:1:-1".data 5 1 (-1) (0, 127) []
      (by decide) (by decide)).trans (by rfl)
  · exact (colon_negative_step_swap.2.1 "1:5:-1".data 1 5 (-1) (0, 127) []
      (by decide) (by decide)).trans (by decide)

/-- C2: `parse_user_input` is not exception-free: a colon range with a zero
step literal and `start ≤ end` reaches `range(start, end + 1, 0)`, which
raises `ValueError` — the zero-step guard compares the regex's *string*
group with the integer 0 and never fires.  `parse("1:5:0")` raises. -/
theorem zero_step_raises :
    parseUserInput (.str "1:5:0".data) (0, 127) '-' [] = .error rangeZeroStepMsg ∧
    (∀ (s : List Char) (a b : Int) (d : Int × Int) (hdr : List Char), a ≤ b →
       colonRangeEval s a b (some 0) d hdr = .error rangeZeroStepMsg) := by
  refine ⟨by rfl, ?_⟩
  intro s a b d hdr hab
  rw [colonRangeEval, if_neg (by simp [stepZeroGuard]), if_neg (by omega)]
  rfl

/-- Witness for C2 at concrete bounds `0 ≤ 5`. -/
theorem zero_step_raises_witness :
    (0 : Int) ≤ 5 ∧
    colonRangeEval "0:5:0".data 0 5 (some 0) (0, 127) [] = .error rangeZeroStepMsg :=
  ⟨by decide, zero_step_raises.2 "0:5:0".data 0 5 (0, 127) [] (by decide)⟩

/-- C3: a wrong-length mapping list does fall back to the `(0, 127)`
default with a diagnostic, but an unparseable mapping *string* does not:
the source prints the diagnostic and leaves the field holding the original
string (the assignment inside the `try` block never happened), contradicting
the code's own comment.  Mapping parsing never touches the `active` flag:
for every configuration with a valid event kind whose construction
succeeds, `active` is exactly the configured `active` value (default
`true`). -/
theorem mapping_invalid_string_kept :
    parseMapping ['m'] (.list [.int 0, .int 1, .int 2]) =
      (defaultMapping,
       [.header (cmdHdr ['m']), .mappingError (.list [.int 0, .int 1, .int 2])]) ∧
    parseMapping ['m'] (.str "abc".data) =
      (.str "abc".data, [.header (cmdHdr ['m']), .mappingError (.str "abc".data)]) ∧
    TomlVal.str "abc".data ≠ defaultMapping ∧
    (∀ (cfg : Config) (c : Command),
       Command.init cfg = .ok c → validEvent cfg = true →
       c.active = cfg.active.getD true) := by
  refine ⟨by rfl, by rfl, ?_, ?_⟩
  · intro h
    rw [defaultMapping] at h
    exact TomlVal.noConfusion h
  intro cfg c h hv
  simp only [Command.init, if_pos hv] at h
  repeat' split at h
  all_goals (cases h <;> rfl)

/-- Witness for C3: the command built from `cfg3` stays active even though
its mapping string is unparseable — and its mapping field still holds the
raw string `"abc"`. -/
theorem mapping_invalid_string_kept_witness :
    Command.init cfg3 = .ok cmd3 ∧
    cmd3.active = true ∧
    cmd3.mapping = .str "abc".data := by
  have h1 : Command.init cfg3 = .ok cmd3 := by rfl
  refine ⟨h1, ?_, by rfl⟩
  exact (mapping_invalid_string_kept.2.2.2 cfg3 cmd3 h1 (by rfl)).trans (by rfl)

/-- C6: a Rule whose `eventKind` is not one of `note_on` / `note_off` /
`control_change` (after `str()` and lowercasing) is constructed inactive,
its `execute` matches no message whatsoever, and the engine's construction
loop still retains it in the command list. -/
theorem unknown_event_inactive (cfg : Config)
    (h : pyLower (eventTypeStr cfg) ∉ validEventKinds) :
    Command.init cfg = .ok (Command.mkInactive cfg) ∧
    (Command.mkInactive cfg).active = false ∧
    (∀ (msg : MidiMessage) (port : List Char),
       (Command.mkInactive cfg).execute msg port = .noMatch) ∧
    (∀ (cfgs : List Config) (cmds : List Command),
       buildCommands cfgs = .ok cmds → cfg ∈ cfgs → cfg.isEmptyTable = false →
       Command.mkInactive cfg ∈ cmds) := by
  have hinit : Command.init cfg = .ok (Command.mkInactive cfg) := by
    rw [Command.init, if_neg (by simp [validEvent, h])]
  refine ⟨hinit, rfl, fun msg port => rfl, ?_⟩
  intro cfgs
  induction cfgs with
  | nil =>
    intro cmds _ h2 _
    exact absurd h2 (List.not_mem_nil cfg)
  | cons x rest ih =>
    intro cmds h1 h2 h3
    rw [buildCommands] at h1
    by_cases he : x.isEmptyTable = true
    · rw [if_pos he] at h1
      rcases List.mem_cons.mp h2 with rfl | h4
      · rw [h3] at he
        exact absurd he (by simp)
      · exact ih cmds h1 h4 h3
    · rw [if_neg he] at h1
      cases hx : Command.init x with
      | error e => rw [hx] at h1; exact absurd h1 (by simp)
      | ok c =>
        rw [hx] at h1
        cases hbc : buildCommands rest with
        | error e => rw [hbc] at h1; exact absurd h1 (by simp)
        | ok cs =>
          rw [hbc] at h1
          cases h1
          rcases List.mem_cons.mp h2 with rfl | h4
          · have hc : c = Command.mkInactive cfg := by
              have h5 := hx.symm.trans hinit
              exact (Except.ok.injEq _ _).mp h5
            rw [hc]
            exact List.mem_cons_self _ _
          · exact List.mem_cons_of_mem c (ih cs hbc h4 h3)

/-- Witness for C6: a configuration with `event = "foo"`. -/
theorem unknown_event_inactive_witness :
    Command.init { event := some "foo".data, command := some "run".data } =
      .ok (Command.mkInactive { event := some "foo".data, command := some "run".data }) ∧
    (Command.mkInactive { event := some "foo".data, command := some "run".data }).active
      = false ∧
    (Command.mkInactive { event := some "foo".data, command := some "run".data }).execute
      ⟨"note_on".data, 0, 64, 100, 0, 0⟩ "pad".data = .noMatch ∧
    Command.mkInactive { event := some "foo".data, command := some "run".data } ∈
      [Command.mkInactive { event := some "foo".data, command := some "run".data }] := by
  have h := unknown_event_inactive { event := some "foo".data, command := some "run".data }
    (by decide)
  exact ⟨h.1, h.2.1, h.2.2.1 ⟨"note_on".data, 0, 64, 100, 0, 0⟩ "pad".data,
    h.2.2.2 [{ event := some "foo".data, command := some "run".data }] _
      (by rw [buildCommands, if_neg (by decide), h.1, buildCommands])
      (List.mem_singleton.mpr rfl) (by decide)⟩

/-- C7: for one incoming message the engine offers it to every stored
command in declaration order; the dispatch requests are exactly the
per-command dispatches in that order — each matching rule contributes
exactly one, and a match never suppresses the evaluation of later rules
(splitting the rule list anywhere splits the dispatch list likewise). -/
theorem engine_dispatch_order (msg : MidiMessage) (port : List Char) :
    (∀ (cmds : List Command) (ds : List Dispatch),
       runCommands cmds msg port = .ok ds →
       ds = cmds.filterMap (fun c => dispatchOpt c msg port)) ∧
    (∀ (xs ys : List Command) (ds : List Dispatch),
       runCommands (xs ++ ys) msg port = .ok ds →
       ds = xs.filterMap (fun c => dispatchOpt c msg port) ++
            ys.filterMap (fun c => dispatchOpt c msg port)) := by
  have main : ∀ (cmds : List Command) (ds : List Dispatch),
      runCommands cmds msg port = .ok ds →
      ds = cmds.filterMap (fun c => dispatchOpt c msg port) := by
    intro cmds
    induction cmds with
    | nil =>
      intro ds h
      rw [runCommands] at h
      cases h
      rfl
    | cons c cs ih =>
      intro ds h
      rw [runCommands] at h
      rw [List.filterMap_cons]
      cases hex : c.execute msg port with
      | noMatch =>
        rw [hex] at h
        rw [show dispatchOpt c msg port = none from by rw [dispatchOpt, hex]]
        exact ih ds h
      | raise e =>
        rw [hex] at h
        exact absurd h (by simp)
      | dispatch d0 =>
        rw [hex] at h
        cases hrc : runCommands cs msg port with
        | error e => rw [hrc] at h; exact absurd h (by simp)
        | ok ds2 =>
          rw [hrc] at h
          cases h
          rw [show dispatchOpt c msg port = some d0 from by rw [dispatchOpt, hex]]
          rw [ih ds2 hrc]
  exact ⟨main, fun xs ys ds h => by rw [main _ _ h, List.filterMap_append]⟩


/-- Witness for C7: both commands match the same message and produce two
dispatch requests, in declaration order. -/
theorem engine_dispatch_order_witness :
    [engDsp1, engDsp2] =
      [engCmd1, engCmd2].filterMap (fun c => dispatchOpt c engMsg "pad".data) :=
  (engine_dispatch_order engMsg "pad".data).1 [engCmd1, engCmd2] [engDsp1, engDsp2] (by rfl)

/-- The payload fields of a dispatch produced by `Command.finish`. -/
theorem finish_dispatch (c : Command) (v : Int) (d : Dispatch)
    (h : c.finish v = .dispatch d) :
    d.value = v ∧
    d.percentage = pyRound ((d.value : ℚ) / 127 * 100) ∧
    (∀ lo hi : ℚ, mappingNums c.mapping = .ok (lo, hi) →
       d.decimal = pyRound2 (lo + (d.value : ℚ) / 127 * (hi - lo))) := by
  rw [Command.finish] at h
  cases hm : mappingNums c.mapping with
  | error e => rw [hm] at h; exact absurd h (by simp)
  | ok p =>
    obtain ⟨lo0, hi0⟩ := p
    rw [hm] at h
    cases hcmd : c.command with
    | none => rw [hcmd] at h; exact absurd h (by simp)
    | some t =>
      rw [hcmd] at h
      cases h
      refine ⟨rfl, rfl, ?_⟩
      intro lo hi hm2
      injection hm2 with h6
      injection h6 with h7 h8
      rw [← h7, ← h8]

/-- C9: on every match the dispatched payload satisfies
`percentage = round(value / 127 * 100)` and
`decimal = round(low + value / 127 * (high - low), 2)` with `(low, high)`
the command's mapping pair, and the derived value is the message's velocity
for the note kinds and its value for control-change. -/
theorem payload_formulas (c : Command) (msg : MidiMessage) (port : List Char)
    (d : Dispatch) (hd : c.execute msg port = .dispatch d) :
    d.percentage = pyRound ((d.value : ℚ) / 127 * 100) ∧
    (∀ lo hi : ℚ, mappingNums c.mapping = .ok (lo, hi) →
       d.decimal = pyRound2 (lo + (d.value : ℚ) / 127 * (hi - lo))) ∧
    ((c.event = some noteOnK ∨ c.event = some noteOffK) → d.value = msg.velocity) ∧
    (c.event = some controlChangeK → d.value = msg.value) := by
  rw [Command.execute] at hd
  by_cases h1 : c.active = false
  · rw [if_pos h1] at hd; exact absurd hd (by simp)
  rw [if_neg h1] at hd
  by_cases h2 : ¬ c.event = some msg.type
  · rw [if_pos h2] at hd; exact absurd hd (by simp)
  rw [if_neg h2] at hd
  by_cases h3 : c.ports ≠ [allKeyword] ∧
      (c.ports.any fun p => isSubstrB p (pyLower port)) = false
  · rw [if_pos h3] at hd; exact absurd hd (by simp)
  rw [if_neg h3] at hd
  by_cases h4 : (msg.channel + 1) ∉ c.channels
  · rw [if_pos h4] at hd; exact absurd hd (by simp)
  rw [if_neg h4] at hd
  by_cases h5 : c.event = some noteOnK ∨ c.event = some noteOffK
  · rw [if_pos h5] at hd
    by_cases h6 : msg.note ∉ c.note
    · rw [if_pos h6] at hd; exact absurd hd (by simp)
    rw [if_neg h6] at hd
    by_cases h7 : msg.velocity ∉ c.velocities
    · rw [if_pos h7] at hd; exact absurd hd (by simp)
    rw [if_neg h7] at hd
    obtain ⟨hv, hp, hdec⟩ := finish_dispatch c msg.velocity d hd
    refine ⟨hp, hdec, fun _ => hv, fun hk => ?_⟩
    rcases h5 with h5 | h5 <;> exact absurd (h5.symm.trans hk) (by decide)
  rw [if_neg h5] at hd
  by_cases h8 : c.event = some controlChangeK
  · rw [if_pos h8] at hd
    by_cases h9 : msg.control ∉ c.control
    · rw [if_pos h9] at hd; exact absurd hd (by simp)
    rw [if_neg h9] at hd
    by_cases h10 : msg.value ∉ c.values
    · rw [if_pos h10] at hd; exact absurd hd (by simp)
    rw [if_neg h10] at hd
    obtain ⟨hv, hp, hdec⟩ := finish_dispatch c msg.value d hd
    exact ⟨hp, hdec, fun hk => absurd hk h5, fun _ => hv⟩
  rw [if_neg h8] at hd
  obtain ⟨_, hp, hdec⟩ := finish_dispatch c 0 d hd
  exact ⟨hp, hdec, fun hk => absurd hk h5, fun hk => absurd hk h8⟩


/-- Witness for C9: the rule matches, the derived value is the velocity
100, and the percentage is `round(100 / 127 * 100) = 79`. -/
theorem payload_formulas_witness :
    cmd9.execute msg9 "pad".data = .dispatch dsp9 ∧
    dsp9.value = msg9.velocity ∧
    dsp9.percentage = pyRound ((dsp9.value : ℚ) / 127 * 100) ∧
    dsp9.percentage = 79 := by
  have hexec : cmd9.execute msg9 "pad".data = .dispatch dsp9 := by rfl
  have h := payload_formulas cmd9 msg9 "pad".data dsp9 hexec
  refine ⟨hexec, h.2.2.1 (Or.inl rfl), h.1, ?_⟩
  have hval : dsp9.value = (100 : Int) := by rfl
  rw [h.1, hval]
  have hq : ((100 : Int) : ℚ) / 127 * 100 = 10000 / 127 := by norm_num
  rw [hq, pyRound]
  norm_num [Int.floor_eq_iff]

/-! ## Appending trailing characters to a matched colon range (C10) -/

theorem takeDigits_append (s t : List Char)
    (h : (takeDigits s).2 ≠ [] ∨ headIsDigit t = false) :
    takeDigits (s ++ t) = ((takeDigits s).1, (takeDigits s).2 ++ t) := by
  induction s with
  | nil =>
    rcases h with h | h
    · exact absurd rfl h
    · cases t with
      | nil => rfl
      | cons c r =>
        rw [headIsDigit] at h
        show takeDigits (c :: r) = ([], c :: r)
        rw [takeDigits, if_neg (by simp [h])]
  | cons a s2 ih =>
    by_cases ha : isDigitChar a = true
    · rw [takeDigits, if_pos ha] at h ⊢
      rw [List.cons_append, takeDigits, if_pos ha, ih (by simpa using h)]
    · rw [List.cons_append, takeDigits, if_neg ha, takeDigits, if_neg ha]
      rfl

theorem parseIntTok_arg_ne_nil (s : List Char) (v : Int) (r : List Char)
    (h : parseIntTok s = some (v, r)) : s ≠ [] := by
  intro hs
  rw [hs] at h
  simp [parseIntTok, headIsMinus, takeDigits] at h

theorem parseIntTok_append (s t : List Char) (v : Int) (r : List Char)
    (h : parseIntTok s = some (v, r)) (hc : r ≠ [] ∨ headIsDigit t = false) :
    parseIntTok (s ++ t) = some (v, r ++ t) := by
  have hmin : headIsMinus (s ++ t) = headIsMinus s := by
    cases s with
    | nil => exact absurd rfl (parseIntTok_arg_ne_nil [] v r h)
    | cons a s2 => rfl
  have htail : (s ++ t).tail = s.tail ++ t := by
    cases s with
    | nil => exact absurd rfl (parseIntTok_arg_ne_nil [] v r h)
    | cons a s2 => rfl
  rw [parseIntTok] at h
  rw [parseIntTok, hmin]
  by_cases hm : headIsMinus s = true
  · rw [if_pos hm] at h ⊢
    rw [htail]
    cases htd : takeDigits s.tail with
    | mk ds r2 =>
      rw [htd] at h
      cases ds with
      | nil => exact absurd h (by simp)
      | cons d0 ds2 =>
        simp only [Option.some.injEq, Prod.mk.injEq] at h
        rw [takeDigits_append s.tail t (by rw [htd, h.2]; exact hc), htd]
        show some (-(digitsVal (d0 :: ds2) : Int), r2 ++ t) = some (v, r ++ t)
        rw [h.1, h.2]
  · rw [if_neg hm] at h ⊢
    cases htd : takeDigits s with
    | mk ds r2 =>
      rw [htd] at h
      cases ds with
      | nil => exact absurd h (by simp)
      | cons d0 ds2 =>
        simp only [Option.some.injEq, Prod.mk.injEq] at h
        rw [takeDigits_append s t (by rw [htd, h.2]; exact hc), htd]
        show some ((digitsVal (d0 :: ds2) : Int), r2 ++ t) = some (v, r ++ t)
        rw [h.1, h.2]

theorem skipWs_append (s t : List Char) (h : skipWs s ≠ []) :
    skipWs (s ++ t) = skipWs s ++ t := by
  induction s with
  | nil => exact absurd rfl h
  | cons c s2 ih =>
    by_cases hw : pyWs c = true
    · rw [skipWs, if_pos hw] at h
      rw [List.cons_append, skipWs, if_pos hw, skipWs, if_pos hw, ih h]
    · rw [List.cons_append, skipWs, if_neg hw, skipWs, if_neg hw]
      rfl

theorem skipWs_nil_append (s t : List Char) (h : skipWs s = []) :
    skipWs (s ++ t) = skipWs t := by
  induction s with
  | nil => rfl
  | cons c s2 ih =>
    by_cases hw : pyWs c = true
    · rw [skipWs, if_pos hw] at h
      rw [List.cons_append, skipWs, if_pos hw, ih h]
    · rw [skipWs, if_neg hw] at h
      exact absurd h (by simp)

theorem skipWs_id (s : List Char) (h : s.all (fun c => !pyWs c) = true) :
    skipWs s = s := by
  cases s with
  | nil => rfl
  | cons c s2 =>
    rw [List.all_cons, Bool.and_eq_true] at h
    have hw : pyWs c = false := by simpa using h.1
    rw [skipWs, if_neg (by simp [hw])]

theorem headIsColon_append (l t : List Char) (h : l ≠ []) :
    headIsColon (l ++ t) = headIsColon l := by
  cases l with
  | nil => exact absurd rfl h
  | cons c r => rfl

theorem tail_append_of_ne_nil (l t : List Char) (h : l ≠ []) :
    (l ++ t).tail = l.tail ++ t := by
  cases l with
  | nil => exact absurd rfl h
  | cons c r => rfl

theorem headIsColon_nil : headIsColon [] = false := rfl

/-- Appending non-extending trailing characters to a fully matched colon
token leaves the regex groups unchanged; the trailing characters become the
ignored remainder. -/
theorem colonMatch_append (tok rest : List Char) (a b : Int) (stg : Option Int)
    (h1 : colonMatch tok = some (a, b, stg, []))
    (h2 : headIsDigit rest = false)
    (h3 : stg = none → stepExtends rest = false)
    (h4 : rest.all (fun c => !pyWs c) = true) :
    colonMatch (tok ++ rest) = some (a, b, stg, rest) := by
  rw [colonMatch] at h1 ⊢
  cases hp1 : parseIntTok tok with
  | none => rw [hp1, colonAfterStart] at h1; exact absurd h1 (by simp)
  | some av =>
    obtain ⟨a1, r1⟩ := av
    rw [hp1, colonAfterStart] at h1
    by_cases hc1 : headIsColon (skipWs r1) = true
    case neg => rw [if_neg hc1] at h1; exact absurd h1 (by simp)
    rw [if_pos hc1] at h1
    have hr1ne : skipWs r1 ≠ [] := by
      intro hh; rw [hh] at hc1; exact absurd hc1 (by decide)
    rw [parseIntTok_append tok rest a1 r1 hp1 (Or.inr h2), colonAfterStart,
      skipWs_append r1 rest hr1ne, headIsColon_append _ rest hr1ne, if_pos hc1,
      tail_append_of_ne_nil _ rest hr1ne]
    cases hp2 : parseIntTok (skipWs (skipWs r1).tail) with
    | none => rw [hp2, colonEnd] at h1; exact absurd h1 (by simp)
    | some bv =>
      obtain ⟨b1, r3⟩ := bv
      rw [hp2, colonEnd, colonStep] at h1
      have harg2 : skipWs (skipWs r1).tail ≠ [] :=
        parseIntTok_arg_ne_nil _ _ _ hp2
      rw [skipWs_append _ rest harg2,
        parseIntTok_append _ rest b1 r3 hp2 (Or.inr h2), colonEnd, colonStep]
      by_cases hc2 : headIsColon (skipWs r3) = true
      · rw [if_pos hc2] at h1
        cases hp3 : parseIntTok (skipWs (skipWs r3).tail) with
        | none =>
          rw [hp3, colonStepRes] at h1
          simp only [Option.some.injEq, Prod.mk.injEq] at h1
          obtain ⟨_, _, _, hnil⟩ := h1
          rw [hnil] at hc2
          exact absurd hc2 (by decide)
        | some sv =>
          obtain ⟨st1, r5⟩ := sv
          rw [hp3, colonStepRes] at h1
          simp only [Option.some.injEq, Prod.mk.injEq] at h1
          obtain ⟨ha1, hb1, hstg, hr5⟩ := h1
          have hr3ne : skipWs r3 ≠ [] := by
            intro hh; rw [hh] at hc2; exact absurd hc2 (by decide)
          have harg3 : skipWs (skipWs r3).tail ≠ [] :=
            parseIntTok_arg_ne_nil _ _ _ hp3
          rw [skipWs_append _ rest hr3ne, headIsColon_append _ rest hr3ne,
            if_pos hc2, tail_append_of_ne_nil _ rest hr3ne,
            skipWs_append _ rest harg3,
            parseIntTok_append _ rest st1 r5 hp3 (Or.inr h2), colonStepRes,
            hr5, List.nil_append, ha1, hb1, ← hstg]
      · rw [if_neg hc2] at h1
        simp only [Option.some.injEq, Prod.mk.injEq] at h1
        obtain ⟨ha1, hb1, hstg, hnil⟩ := h1
        have hsw3 : skipWs (r3 ++ rest) = rest := by
          rw [skipWs_nil_append _ _ hnil, skipWs_id _ h4]
        rw [hsw3]
        have hse : stepExtends rest = false := h3 hstg.symm
        by_cases hcr : headIsColon rest = true
        · rw [if_pos hcr]
          rw [stepExtends, if_pos hcr] at hse
          cases hpe : parseIntTok (skipWs rest.tail) with
          | some sv => rw [hpe] at hse; exact absurd hse (by simp)
          | none => rw [colonStepRes, hsw3, ha1, hb1, ← hstg]
        · rw [if_neg hcr]
          rw [ha1, hb1, ← hstg]

theorem okResult_match_pyRange (p : Except String (List Int)) (w1 w2 : List Diag) :
    okResult (match p with
              | .error e => .error e
              | .ok l => .ok ⟨l, w1⟩) =
    okResult (match p with
              | .error e => .error e
              | .ok l => .ok ⟨l, w2⟩) := by
  cases p <;> rfl

/-- The result list of the colon-range arm does not depend on the token
text `s`, which only feeds the warning message. -/
theorem colonRangeEval_result (s1 s2 : List Char) (a b : Int) (stg : Option Int)
    (d : Int × Int) (hdr : List Char) :
    okResult (colonRangeEval s1 a b stg d hdr) =
      okResult (colonRangeEval s2 a b stg d hdr) := by
  rw [colonRangeEval.eq_def, colonRangeEval.eq_def]
  by_cases h1 : stepZeroGuard stg = true
  · rw [if_pos h1, if_pos h1]
  · rw [if_neg h1, if_neg h1]
    by_cases h2 : b < a
    · rw [if_pos h2, if_pos h2]
    · rw [if_neg h2, if_neg h2]
      exact okResult_match_pyRange _ _ _

/-- C10: because the colon-range pattern is matched with `re.match` (a
prefix match, not anchored at the end), a separator-free token that begins
with a fully matched colon range parses as that colon range with the
trailing characters ignored: appending any suffix that does not extend the
regex groups (its head is not a digit, and it does not supply a step group
when the token had none) changes neither the branch taken nor the result
list.  In particular `parse("1:4abc") = [1, 2, 3, 4]` with no diagnostic
rather than the unparseable-token error. -/
theorem colon_prefix_trailing_ignored :
    (∀ (tok rest : List Char) (a b : Int) (stg : Option Int) (d : Int × Int)
       (sep : Char) (hdr : List Char),
       sepFreeB (tok ++ rest) = true →
       tok ≠ [] →
       tok ++ rest ≠ allKeyword →
       tok ≠ allKeyword →
       pyIsDigitStr (tok ++ rest) = false →
       pyIsDigitStr tok = false →
       colonMatch (pyLower tok) = some (a, b, stg, []) →
       headIsDigit (pyLower rest) = false →
       (stg = none → stepExtends (pyLower rest) = false) →
       (pyLower rest).all (fun c => !pyWs c) = true →
       parseUserInput (.str (tok ++ rest)) d sep hdr =
         colonRangeEval (tok ++ rest) a b stg d hdr ∧
       parseUserInput (.str tok) d sep hdr = colonRangeEval tok a b stg d hdr ∧
       okResult (parseUserInput (.str (tok ++ rest)) d sep hdr) =
         okResult (parseUserInput (.str tok) d sep hdr)) ∧
    parseUserInput (.str "1:4abc".data) (0, 127) '-' [] = .ok ⟨[1, 2, 3, 4], []⟩ := by
  refine ⟨?_, by rfl⟩
  intro tok rest a b stg d sep hdr hsf hne hall1 hall2 hdig1 hdig2 hcm hhd hstep hwf
  have hsft : sepFreeB tok = true := by
    rw [sepFreeB] at hsf ⊢
    rw [List.all_append, Bool.and_eq_true] at hsf
    exact hsf.1
  have hm2 : colonMatch (pyLower (tok ++ rest)) = some (a, b, stg, pyLower rest) := by
    rw [pyLower, List.map_append]
    exact colonMatch_append _ _ _ _ _ hcm hhd hstep hwf
  have e1 : parseUserInput (.str (tok ++ rest)) d sep hdr =
      colonRangeEval (tok ++ rest) a b stg d hdr := by
    show parseStrFull (tok ++ rest) d sep hdr = _
    rw [parseStrFull,
      if_neg (by intro hh; exact hne (List.append_eq_nil.mp hh).1),
      if_neg hall1, splitTokens_nosep _ hsf, if_neg (by simp),
      parseSingleToken, if_neg (by simp [hdig1]), hm2]
  have e2 : parseUserInput (.str tok) d sep hdr =
      colonRangeEval tok a b stg d hdr := by
    show parseStrFull tok d sep hdr = _
    rw [parseStrFull, if_neg hne, if_neg hall2, splitTokens_nosep _ hsft,
      if_neg (by simp), parseSingleToken, if_neg (by simp [hdig2]), hcm]
  refine ⟨e1, e2, ?_⟩
  rw [e1, e2]
  exact colonRangeEval_result _ _ _ _ _ _ _

/-- Witness for C10 on the token `"1:4"` with trailing `"abc"`. -/
theorem colon_prefix_trailing_ignored_witness :
    parseUserInput (.str ("1:4".data ++ "abc".data)) (0, 127) '-' [] =
      colonRangeEval ("1:4".data ++ "abc".data) 1 4 none (0, 127) [] ∧
    parseUserInput (.str "1:4".data) (0, 127) '-' [] =
      colonRangeEval "1:4".data 1 4 none (0, 127) [] ∧
    okResult (parseUserInput (.str ("1:4".data ++ "abc".data)) (0, 127) '-' []) =
      okResult (parseUserInput (.str "1:4".data) (0, 127) '-' []) :=
  colon_prefix_trailing_ignored.1 "1:4".data "abc".data 1 4 none (0, 127) '-' []
    (by decide) (by decide) (by decide) (by decide) (by decide) (by decide)
    (by decide) (by decide) (by decide) (by decide)

end MidiLauncher
